import Mathlib

/-!
Verification development for the SW4/WPP image reader of `seispy`
(`src/seispy/postprocess/image.py`).

The binary layer is embedded at value (record/element) granularity rather
than raw bytes: `np.fromfile` consumes whole typed records, so a file is
modelled as an optional header record, a list of complete patch-descriptor
records, and a flat list of sample elements.  IEEE floating point
arithmetic is modelled exactly over `ℚ` (all spec scenarios use values on
which float arithmetic is exact), with the square roots of `np.sqrt`
taken in `ℝ`.  Partial trailing bytes of an incomplete record are not
representable in this model; no property considered here depends on them.

Python attributes that change type during a read (`mode`, `plane`, ...)
are modelled with the little dynamic-value type `PyVal`, which also serves
as the key type of the dictionary lookups (a Python `dict` keyed by
integers simply does not contain a string key).
-/

deriving instance DecidableEq for Except

namespace SeisPy

/-- A Python-style dynamically typed value: `None`, an `int`, a `float`
(exact, as `ℚ`) or a `str`. -/
inductive PyVal where
  | pynone
  | pint (n : Int)
  | pfloat (q : ℚ)
  | pstr (s : String)
deriving DecidableEq

/-- Modelled from the spec: `prec_dict` from `seispy.plotting.dic_and_dtype`
(the module is not under `src/`).  Fixed lookup precision-code → byte
width, domain `{4, 8}` (`4` = single, `8` = double); any other key —
including a non-integer key — has no entry (a Python `KeyError`). -/
def prec_dict : PyVal → Option Int
  | .pint n => if n = 4 then some 4 else if n = 8 then some 8 else none
  | _ => none

/-- Modelled from the spec: `SW4_plane_dict` from
`seispy.plotting.dic_and_dtype` (the module is not under `src/`).  Fixed
lookup plane-code → `{X, Y, Z}` with the integer domain `{0, 1, 2}`
(`planeCode:int32`; codes `0` and `1` select the X/Y orientation branch of
the patch decoder and code `2` the Z branch); any other key — including a
non-integer key such as a string — has no entry (a Python `KeyError`). -/
def SW4_plane_dict : PyVal → Option String
  | .pint n =>
    if n = 0 then some "X" else if n = 1 then some "Y" else if n = 2 then some "Z" else none
  | _ => none

/-- Modelled from the spec: `SW4_mode_dict` from
`seispy.plotting.dic_and_dtype` (the module is not under `src/`).  Fixed
lookup mode-code → (quantity name, unit string).  Only the `(ux, m)` pair
named by the spec is included (as code `1`); no claim depends on further
entries, since every native read fails before the mode lookup is used. -/
def SW4_mode_dict : PyVal → Option (String × String)
  | .pint n => if n = 1 then some ("ux", "m") else none
  | _ => none

/-- The fixed-layout SW4 file header record
(`precision:int32, numberOfPatches:int32, time:float64, planeCode:int32,
coordinate:float64, modeCode:int32, gridInfo:int32, creationTime:bytes`). -/
structure SW4Header where
  precision : Int
  number_of_patches : Int
  time : ℚ
  planeCode : Int
  coordinate : ℚ
  modeCode : Int
  gridInfo : Int
  creationTime : String
deriving DecidableEq

/-- One fixed-layout patch descriptor record
(`h:float64, zmin:float64, ib:int32, ni:int32, jb:int32, nj:int32`). -/
structure SW4PatchDesc where
  h : ℚ
  zmin : ℚ
  ib : Int
  ni : Int
  jb : Int
  nj : Int
deriving DecidableEq

/-- An SW4 image file, at record/element granularity: the header record if
the file holds one complete header, then the complete patch descriptor
records present, then the flat sample elements. -/
structure SW4File where
  header? : Option SW4Header
  descriptors : List SW4PatchDesc
  samples : List ℚ
deriving DecidableEq

/-- The `Patch` object of `image.py`, with the defaults of
`Patch.__init__` (Python initialises `data` to `None`; the empty grid
stands in for it here).  `np.sqrt` being irrational in general, the
squares of the two square-rooted statistics are stored (`stdSq`, `rmsSq`);
`Patch.std` / `Patch.rms` below are the derived real values. -/
structure Patch where
  number : Int := 0
  h : ℚ := 0
  zmin : ℚ := 1
  ib : Int := 1
  ni : Int := 0
  jb : Int := 1
  nj : Int := 0
  extent : ℚ × ℚ × ℚ × ℚ := (0, 1, 0, 1)
  data : List (List ℚ) := []
  min : ℚ := 0
  max : ℚ := 0
  stdSq : ℚ := 0
  rmsSq : ℚ := 0
deriving DecidableEq

/-- The `Image` object of `image.py`, with the defaults of
`Image.__init__`.  The trailing fields are the attributes first created by
`_readSW4hdr` (`_plane`, `coordinate`, `gridinfo`, `creation_time`); they
do not exist before that call, which `PyVal.pynone` / zero defaults stand
in for. -/
structure Image where
  filename : PyVal := .pynone
  number_of_patches : Int := 1
  precision : Int := 4
  type : String := "cross-section"
  mode : PyVal := .pynone
  unit : PyVal := .pynone
  cycle : Int := 0
  time : ℚ := 0
  plane : PyVal := .pstr "X"
  min : ℚ := 0
  max : ℚ := 0
  std : ℚ := 0
  rms : ℚ := 0
  patches : List Patch := []
  _plane : PyVal := .pynone
  coordinate : ℚ := 0
  gridinfo : Int := 0
  creation_time : String := ""
deriving DecidableEq

/-- `data.min()` of numpy over the flat sample buffer (0 on the empty
buffer, on which numpy instead raises; the decoder below errors before
using this value on an empty buffer). -/
def listMin : List ℚ → ℚ
  | [] => 0
  | x :: xs => xs.foldl min x

/-- `data.max()` of numpy over the flat sample buffer. -/
def listMax : List ℚ → ℚ
  | [] => 0
  | x :: xs => xs.foldl max x

/-- `data.mean()` of numpy. -/
def listMean (xs : List ℚ) : ℚ := xs.sum / (xs.length : ℚ)

/-- `np.mean(data**2)`: the mean square of the sample buffer (the radicand
of the RMS). -/
def meanSq (xs : List ℚ) : ℚ := (xs.map fun x => x * x).sum / (xs.length : ℚ)

/-- `data.std()**2` of numpy: the population variance
`mean((x - mean x)^2)` (the radicand of `data.std()`). -/
def varQ (xs : List ℚ) : ℚ :=
  ((xs.map fun x => (x - listMean xs) * (x - listMean xs)).sum) / (xs.length : ℚ)

/-- The real RMS of a patch, `np.sqrt(np.mean(data**2))`. -/
noncomputable def Patch.rms (p : Patch) : ℝ := Real.sqrt (p.rmsSq : ℝ)

/-- The real standard deviation of a patch, `data.std()`. -/
noncomputable def Patch.std (p : Patch) : ℝ := Real.sqrt (p.stdSq : ℝ)

/-- `np.fromfile(f, dtype, count)` on the element stream `s`: numpy reads
up to `count` elements, silently returning fewer at end of file; a
negative count reads the whole rest of the stream. -/
def npTake (count : Int) (s : List ℚ) : List ℚ :=
  if count < 0 then s else s.take count.toNat

/-- The rest of the element stream after `npTake count s`. -/
def npDrop (count : Int) (s : List ℚ) : List ℚ :=
  if count < 0 then [] else s.drop count.toNat

/-- Split a flat buffer into `r` rows of `c` elements (row-major). -/
def reshape2 : Nat → Nat → List ℚ → List (List ℚ)
  | 0, _, _ => []
  | r + 1, c, xs => xs.take c :: reshape2 r c (xs.drop c)

/-- `data.reshape(r, c)` of numpy: succeeds exactly when the buffer holds
`r * c` elements (and the requested dimensions are non-negative — numpy
raises on a negative dimension; its `-1`-inference is not modelled, no
property here involves it), else raises `ValueError`. -/
def npReshape (xs : List ℚ) (r c : Int) : Option (List (List ℚ)) :=
  if 0 ≤ r ∧ 0 ≤ c ∧ xs.length = r.toNat * c.toNat then
    some (reshape2 r.toNat c.toNat xs)
  else none

/-- `.T` of numpy on a rectangular row-major grid. -/
def transposeGrid : List (List ℚ) → List (List ℚ)
  | [] => []
  | [r] => r.map fun x => [x]
  | r :: s :: rs => List.zipWith (fun x col => x :: col) r (transposeGrid (s :: rs))

/-- Decode failures.  `malformedHeader`, `truncatedPatch` and
`unknownCode` are the spec's taxonomy (`IndexError` on the header read,
`ValueError` from `reshape` on a short sample buffer, and `KeyError` from
a lookup-table miss, respectively).  `emptyPatchData` is the additional
`ValueError` numpy raises from `data.min()` on a zero-size buffer; it is
kept separate so it is not confused with `truncatedPatch`. -/
inductive ReadError where
  | malformedHeader
  | truncatedPatch
  | unknownCode
  | emptyPatchData
deriving DecidableEq

/-- The body of the patch loop of `Image._readSW4patches`, for one
descriptor `d` at loop index `i`, on the remaining sample stream `s`, with
`plane` the image's raw `_plane` attribute:
`data = np.fromfile(f, self.precision, patch.ni*patch.nj)`;
`patch.data = data.reshape(patch.nj, patch.ni)`; then the orientation
branch on `self._plane` (codes `(0, 1)`: X/Y extent, no transpose; code
`2`: transpose and Z extent; any other code: neither, the default extent
stays); then the statistics from the raw 1-D `data` buffer.  The sample
byte width plays no role at element granularity. -/
def decodeOnePatch (plane : SeisPy.PyVal) (i : Nat) (d : SeisPy.SW4PatchDesc) (s : List ℚ) :
    Except SeisPy.ReadError (SeisPy.Patch × List ℚ) :=
  match SeisPy.npReshape (SeisPy.npTake (d.ni * d.nj) s) d.nj d.ni with
  | none => .error .truncatedPatch
  | some grid =>
    if (SeisPy.npTake (d.ni * d.nj) s).isEmpty then .error .emptyPatchData
    else if plane = .pint 0 ∨ plane = .pint 1 then
      .ok ({ number := (i : Int), h := d.h, zmin := d.zmin, ib := d.ib,
             ni := d.ni, jb := d.jb, nj := d.nj,
             extent := (0 - d.h / 2, ((d.ni : ℚ) - 1) * d.h + d.h / 2,
                        d.zmin - d.h / 2, d.zmin + ((d.nj : ℚ) - 1) * d.h + d.h / 2),
             data := grid,
             min := SeisPy.listMin (SeisPy.npTake (d.ni * d.nj) s),
             max := SeisPy.listMax (SeisPy.npTake (d.ni * d.nj) s),
             stdSq := SeisPy.varQ (SeisPy.npTake (d.ni * d.nj) s),
             rmsSq := SeisPy.meanSq (SeisPy.npTake (d.ni * d.nj) s) },
           SeisPy.npDrop (d.ni * d.nj) s)
    else if plane = .pint 2 then
      .ok ({ number := (i : Int), h := d.h, zmin := d.zmin, ib := d.ib,
             ni := d.ni, jb := d.jb, nj := d.nj,
             extent := (0 - d.h / 2, ((d.nj : ℚ) - 1) * d.h + d.h / 2,
                        0 - d.h / 2, ((d.ni : ℚ) - 1) * d.h + d.h / 2),
             data := SeisPy.transposeGrid grid,
             min := SeisPy.listMin (SeisPy.npTake (d.ni * d.nj) s),
             max := SeisPy.listMax (SeisPy.npTake (d.ni * d.nj) s),
             stdSq := SeisPy.varQ (SeisPy.npTake (d.ni * d.nj) s),
             rmsSq := SeisPy.meanSq (SeisPy.npTake (d.ni * d.nj) s) },
           SeisPy.npDrop (d.ni * d.nj) s)
    else
      .ok ({ number := (i : Int), h := d.h, zmin := d.zmin, ib := d.ib,
             ni := d.ni, jb := d.jb, nj := d.nj,
             data := grid,
             min := SeisPy.listMin (SeisPy.npTake (d.ni * d.nj) s),
             max := SeisPy.listMax (SeisPy.npTake (d.ni * d.nj) s),
             stdSq := SeisPy.varQ (SeisPy.npTake (d.ni * d.nj) s),
             rmsSq := SeisPy.meanSq (SeisPy.npTake (d.ni * d.nj) s) },
           SeisPy.npDrop (d.ni * d.nj) s)

/-- The `for i, item in enumerate(patch_info)` loop of
`Image._readSW4patches`, threading the sample stream through the patches
in strict sequential order; the first failure aborts the whole loop (a
raised Python exception). -/
def decodePatchLoop (plane : SeisPy.PyVal) :
    Nat → List SeisPy.SW4PatchDesc → List ℚ →
    Except SeisPy.ReadError (List SeisPy.Patch × List ℚ)
  | _, [], s => .ok ([], s)
  | i, d :: ds, s =>
    match decodeOnePatch plane i d s with
    | .error e => .error e
    | .ok (p, rest) =>
      match decodePatchLoop plane (i + 1) ds rest with
      | .error e => .error e
      | .ok (ps, final) => .ok (p :: ps, final)

/-- `Image._readSW4patches`:
`patch_info = np.fromfile(f, SW4_patch_dtype, self.number_of_patches)`
silently yields at most `number_of_patches` descriptor records (fewer at
end of file), then the loop decodes each and appends the patches to
`self.patches`.  When the stream holds fewer than the requested number of
complete records (or the count is negative, meaning read-all), the
underlying `fread` consumes every remaining byte — trailing sample bytes
included, with no seek-back of a partial record — leaving the cursor at
end of file, so the loop's sample reads then see an empty stream.  (Sample
bytes numerous enough to form whole spurious descriptor records would be
reinterpreted as descriptors by numpy; that configuration is not
representable at this model's record granularity and no property here
depends on it.) -/
def Image._readSW4patches (img : SeisPy.Image) (descs : List SeisPy.SW4PatchDesc)
    (s : List ℚ) : Except SeisPy.ReadError SeisPy.Image :=
  match decodePatchLoop img._plane 0
      (if img.number_of_patches < 0 then descs else descs.take img.number_of_patches.toNat)
      (if img.number_of_patches < 0 ∨ descs.length < img.number_of_patches.toNat then []
       else s) with
  | .error e => .error e
  | .ok (ps, _) => .ok { img with patches := img.patches ++ ps }

/-- `Image._readSW4hdr`: `np.fromfile(f, SW4_header_dtype, 1)[0]` raises
`IndexError` when no complete header record is present; otherwise the
eight header fields are unpacked onto the image — note the plane code is
stored on the attribute `_plane`, not `plane`. -/
def Image._readSW4hdr (img : SeisPy.Image) (f : SeisPy.SW4File) :
    Except SeisPy.ReadError SeisPy.Image :=
  match f.header? with
  | none => .error .malformedHeader
  | some hd =>
    .ok { img with
      precision := hd.precision,
      number_of_patches := hd.number_of_patches,
      time := hd.time,
      _plane := .pint hd.planeCode,
      coordinate := hd.coordinate,
      mode := .pint hd.modeCode,
      gridinfo := hd.gridInfo,
      creation_time := hd.creationTime }

/-- `2*(np.random.rand(ni, nj) - 0.5)`: the random grid of the `random`
branch of `read`, parameterised by the random source `rand` (one value in
`[0, 1)` per grid point). -/
def randomData (rand : Nat → Nat → ℚ) (ni nj : Nat) : List (List ℚ) :=
  (List.range ni).map fun i => (List.range nj).map fun j => 2 * (rand i j - 1 / 2)

/-- The input of the top-level `read`: the `'random'` sentinel (with its
random source made explicit), the `None` sentinel, or a real file
together with the `is_SW4` flag the external `parse_filename`
collaborator derives from the file name (filename parsing itself is out
of scope per the spec). -/
inductive ReadInput where
  | randomInput (rand : Nat → Nat → ℚ)
  | noneInput
  | fileInput (contents : SeisPy.SW4File) (is_SW4 : Bool)

/-- The top-level `read` of `image.py`.  The native branch runs
`_readSW4hdr`, then the three lookups
(`prec_dict[image.precision]`, `SW4_plane_dict[image.plane]`,
`SW4_mode_dict[image.mode]`) in source order — note the second one is
keyed by the attribute `plane`, which at that point still holds the
string default of `Image.__init__`, not the header's plane code (that
went to `_plane`) — and then `_readSW4patches`.  A missed lookup is a
`KeyError`.  The non-native branch decodes nothing (the abstracted
file-name metadata is not modelled). -/
def read : ReadInput → Except SeisPy.ReadError SeisPy.Image
  | .randomInput rand =>
    .ok { filename := .pstr "random",
          patches := [{ number := 0, h := 100, zmin := 0, ni := 100, nj := 200,
                        data := randomData rand 100 200,
                        extent := (0, (200 : ℚ) * 100, 0 + (100 : ℚ) * 100, 0),
                        min := SeisPy.listMin (randomData rand 100 200).flatten,
                        max := SeisPy.listMax (randomData rand 100 200).flatten,
                        stdSq := SeisPy.varQ (randomData rand 100 200).flatten,
                        rmsSq := SeisPy.meanSq (randomData rand 100 200).flatten }] }
  | .noneInput => .ok {}
  | .fileInput _ false => .ok {}
  | .fileInput f true =>
    match Image._readSW4hdr {} f with
    | .error e => .error e
    | .ok img1 =>
      match SeisPy.prec_dict (.pint img1.precision) with
      | none => .error .unknownCode
      | some w =>
        match SeisPy.SW4_plane_dict { img1 with precision := w }.plane with
        | none => .error .unknownCode
        | some pl =>
          match SeisPy.SW4_mode_dict { img1 with precision := w, plane := .pstr pl }.mode with
          | none => .error .unknownCode
          | some mu =>
            Image._readSW4patches
              { img1 with precision := w, plane := .pstr pl,
                          mode := .pstr mu.1, unit := .pstr mu.2 }
              f.descriptors f.samples

/-! ### Shape and permutation facts about `reshape2` and `transposeGrid` -/

theorem reshape2_length (r c : Nat) (xs : List ℚ) : (reshape2 r c xs).length = r := by
  induction r generalizing xs with
  | zero => rfl
  | succ r ih => simp [reshape2, ih]

theorem reshape2_rows (r c : Nat) (xs : List ℚ) (hlen : xs.length = r * c) :
    ∀ row ∈ reshape2 r c xs, row.length = c := by
  induction r generalizing xs with
  | zero => simp [reshape2]
  | succ r ih =>
    rw [Nat.succ_mul] at hlen
    intro row hrow
    rcases (by simpa [reshape2] using hrow : row = xs.take c ∨ row ∈ reshape2 r c (xs.drop c))
      with h | h
    · subst h; rw [List.length_take]; omega
    · exact ih (xs.drop c) (by rw [List.length_drop]; omega) row h

theorem reshape2_flatten (r c : Nat) (xs : List ℚ) (hlen : xs.length = r * c) :
    (reshape2 r c xs).flatten = xs := by
  induction r generalizing xs with
  | zero =>
    simp only [Nat.zero_mul] at hlen
    simp [reshape2, List.eq_nil_of_length_eq_zero hlen]
  | succ r ih =>
    rw [Nat.succ_mul] at hlen
    simp only [reshape2, List.flatten_cons]
    rw [ih (xs.drop c) (by rw [List.length_drop]; omega)]
    exact List.take_append_drop c xs

theorem transposeGrid_length (c : Nat) :
    ∀ g : List (List ℚ), g ≠ [] → (∀ row ∈ g, row.length = c) →
      (transposeGrid g).length = c
  | [], h, _ => absurd rfl h
  | [r], _, hrows => by
    simp only [transposeGrid, List.length_map]
    exact hrows r (by simp)
  | r :: s :: rs, _, hrows => by
    simp only [transposeGrid, List.length_zipWith]
    rw [transposeGrid_length c (s :: rs) (by simp)
      (fun row hr => hrows row (List.mem_cons_of_mem _ hr))]
    rw [hrows r (by simp)]
    exact Nat.min_self c

theorem zipWith_cons_rows (k : Nat) :
    ∀ (a : List ℚ) (b : List (List ℚ)), (∀ col ∈ b, col.length = k) →
      ∀ row ∈ List.zipWith (fun x col => x :: col) a b, row.length = k + 1
  | [], _, _, row, hrow => by simp at hrow
  | _ :: _, [], _, row, hrow => by simp at hrow
  | x :: a, col :: b, hb, row, hrow => by
    rcases (by simpa [List.zipWith] using hrow :
        row = x :: col ∨ row ∈ List.zipWith (fun x col => x :: col) a b) with h | h
    · subst h; simp [hb col (by simp)]
    · exact zipWith_cons_rows k a b (fun c hc => hb c (List.mem_cons_of_mem _ hc)) row h

theorem transposeGrid_rows (c : Nat) :
    ∀ g : List (List ℚ), (∀ row ∈ g, row.length = c) →
      ∀ row ∈ transposeGrid g, row.length = g.length
  | [], _, row, hrow => by simp [transposeGrid] at hrow
  | [r], _, row, hrow => by
    obtain ⟨x, _, rfl⟩ := by simpa [transposeGrid] using hrow
    simp
  | r :: s :: rs, hrows, row, hrow => by
    have hcols : ∀ col ∈ transposeGrid (s :: rs), col.length = (s :: rs).length :=
      transposeGrid_rows c (s :: rs) (fun w hw => hrows w (List.mem_cons_of_mem _ hw))
    have := zipWith_cons_rows ((s :: rs).length) r (transposeGrid (s :: rs)) hcols row
      (by simpa [transposeGrid] using hrow)
    simpa using this

theorem flatten_map_singleton (r : List ℚ) : (r.map fun x => [x]).flatten = r := by
  induction r with
  | nil => rfl
  | cons x xs ih => simp [ih]

theorem zipWith_cons_flatten_perm :
    ∀ (a : List ℚ) (b : List (List ℚ)), a.length = b.length →
      (List.zipWith (fun x col => x :: col) a b).flatten.Perm (a ++ b.flatten)
  | [], [], _ => by simp
  | [], _ :: _, h => by simp at h
  | _ :: _, [], h => by simp at h
  | x :: a, col :: b, h => by
    simp only [List.zipWith, List.flatten_cons, List.cons_append]
    have ih := zipWith_cons_flatten_perm a b (by simpa using h)
    refine List.Perm.cons x ((List.Perm.append_left col ih).trans ?_)
    rw [← List.append_assoc, ← List.append_assoc]
    exact List.Perm.append_right _ List.perm_append_comm

theorem transposeGrid_flatten_perm (c : Nat) :
    ∀ g : List (List ℚ), (∀ row ∈ g, row.length = c) →
      (transposeGrid g).flatten.Perm g.flatten
  | [], _ => by simp [transposeGrid]
  | [r], _ => by simp [transposeGrid, flatten_map_singleton]
  | r :: s :: rs, hrows => by
    have hlen : r.length = (transposeGrid (s :: rs)).length := by
      rw [transposeGrid_length c (s :: rs) (by simp)
        (fun w hw => hrows w (List.mem_cons_of_mem _ hw))]
      exact hrows r (by simp)
    have h1 := zipWith_cons_flatten_perm r (transposeGrid (s :: rs)) hlen
    have h2 := transposeGrid_flatten_perm c (s :: rs)
      (fun w hw => hrows w (List.mem_cons_of_mem _ hw))
    simp only [transposeGrid, List.flatten_cons]
    exact h1.trans (List.Perm.append_left r h2)

/-! ### The summary statistics are invariant under permutation of the buffer -/

theorem foldl_min_mem (xs : List ℚ) : ∀ x : ℚ, xs.foldl min x ∈ x :: xs := by
  induction xs with
  | nil => intro x; simp
  | cons y ys ih =>
    intro x
    simp only [List.foldl_cons]
    rcases List.mem_cons.mp (ih (min x y)) with he | he
    · rw [he]
      rcases min_choice x y with hm | hm <;> rw [hm] <;> simp
    · exact List.mem_cons_of_mem _ (List.mem_cons_of_mem _ he)

theorem foldl_min_le (xs : List ℚ) : ∀ x y : ℚ, y ∈ x :: xs → xs.foldl min x ≤ y := by
  induction xs with
  | nil =>
    intro x y hy
    simp only [List.not_mem_nil, or_false, List.mem_singleton] at hy
    simp [hy]
  | cons z zs ih =>
    intro x y hy
    simp only [List.foldl_cons]
    rcases (by simpa using hy : y = x ∨ y = z ∨ y ∈ zs) with h | h | h
    · rw [h]
      exact le_trans (ih (min x z) (min x z) (by simp)) (min_le_left x z)
    · rw [h]
      exact le_trans (ih (min x z) (min x z) (by simp)) (min_le_right x z)
    · exact ih (min x z) y (List.mem_cons_of_mem _ h)

theorem listMin_mem (xs : List ℚ) (h : xs ≠ []) : listMin xs ∈ xs := by
  cases xs with
  | nil => exact absurd rfl h
  | cons x ys => exact foldl_min_mem ys x

theorem listMin_le (xs : List ℚ) : ∀ y ∈ xs, listMin xs ≤ y := by
  cases xs with
  | nil => simp
  | cons x ys => exact fun y hy => foldl_min_le ys x y hy

theorem listMin_perm {xs ys : List ℚ} (h : xs.Perm ys) : listMin xs = listMin ys := by
  cases xs with
  | nil => rw [(List.Perm.nil_eq h).symm]
  | cons x zs =>
    have hys : ys ≠ [] := by
      intro he; subst he; exact absurd h.length_eq (by simp)
    refine le_antisymm ?_ ?_
    · exact listMin_le (x :: zs) (listMin ys) (h.mem_iff.mpr (listMin_mem ys hys))
    · exact listMin_le ys (listMin (x :: zs)) (h.mem_iff.mp (listMin_mem (x :: zs) (by simp)))

theorem foldl_max_mem (xs : List ℚ) : ∀ x : ℚ, xs.foldl max x ∈ x :: xs := by
  induction xs with
  | nil => intro x; simp
  | cons y ys ih =>
    intro x
    simp only [List.foldl_cons]
    rcases List.mem_cons.mp (ih (max x y)) with he | he
    · rw [he]
      rcases max_choice x y with hm | hm <;> rw [hm] <;> simp
    · exact List.mem_cons_of_mem _ (List.mem_cons_of_mem _ he)

theorem foldl_max_ge (xs : List ℚ) : ∀ x y : ℚ, y ∈ x :: xs → y ≤ xs.foldl max x := by
  induction xs with
  | nil =>
    intro x y hy
    simp only [List.not_mem_nil, or_false, List.mem_singleton] at hy
    simp [hy]
  | cons z zs ih =>
    intro x y hy
    simp only [List.foldl_cons]
    rcases (by simpa using hy : y = x ∨ y = z ∨ y ∈ zs) with h | h | h
    · rw [h]
      exact le_trans (le_max_left x z) (ih (max x z) (max x z) (by simp))
    · rw [h]
      exact le_trans (le_max_right x z) (ih (max x z) (max x z) (by simp))
    · exact ih (max x z) y (List.mem_cons_of_mem _ h)

theorem listMax_mem (xs : List ℚ) (h : xs ≠ []) : listMax xs ∈ xs := by
  cases xs with
  | nil => exact absurd rfl h
  | cons x ys => exact foldl_max_mem ys x

theorem listMax_ge (xs : List ℚ) : ∀ y ∈ xs, y ≤ listMax xs := by
  cases xs with
  | nil => simp
  | cons x ys => exact fun y hy => foldl_max_ge ys x y hy

theorem listMax_perm {xs ys : List ℚ} (h : xs.Perm ys) : listMax xs = listMax ys := by
  cases xs with
  | nil => rw [(List.Perm.nil_eq h).symm]
  | cons x zs =>
    have hys : ys ≠ [] := by
      intro he; subst he; exact absurd h.length_eq (by simp)
    refine le_antisymm ?_ ?_
    · exact listMax_ge ys (listMax (x :: zs)) (h.mem_iff.mp (listMax_mem (x :: zs) (by simp)))
    · exact listMax_ge (x :: zs) (listMax ys) (h.mem_iff.mpr (listMax_mem ys hys))

theorem listMean_perm {xs ys : List ℚ} (h : xs.Perm ys) : listMean xs = listMean ys := by
  unfold listMean
  rw [h.sum_eq, h.length_eq]

theorem meanSq_perm {xs ys : List ℚ} (h : xs.Perm ys) : meanSq xs = meanSq ys := by
  unfold meanSq
  rw [(h.map fun x => x * x).sum_eq, h.length_eq]

theorem varQ_perm {xs ys : List ℚ} (h : xs.Perm ys) : varQ xs = varQ ys := by
  unfold varQ
  rw [listMean_perm h, (h.map fun x => (x - listMean ys) * (x - listMean ys)).sum_eq,
    h.length_eq]

/-! ### Characterisation of a successful patch decode -/

theorem decodeOnePatch_ok_XY {plane : PyVal} {i : Nat} {d : SW4PatchDesc} {s : List ℚ}
    {p : Patch} {s' : List ℚ}
    (hpl : plane = .pint 0 ∨ plane = .pint 1)
    (hok : decodeOnePatch plane i d s = .ok (p, s')) :
    0 ≤ d.ni ∧ 0 ≤ d.nj ∧
    (npTake (d.ni * d.nj) s).length = d.nj.toNat * d.ni.toNat ∧
    npTake (d.ni * d.nj) s ≠ [] ∧
    p = { number := (i : Int), h := d.h, zmin := d.zmin, ib := d.ib, ni := d.ni,
          jb := d.jb, nj := d.nj,
          extent := (0 - d.h / 2, ((d.ni : ℚ) - 1) * d.h + d.h / 2,
                     d.zmin - d.h / 2, d.zmin + ((d.nj : ℚ) - 1) * d.h + d.h / 2),
          data := reshape2 d.nj.toNat d.ni.toNat (npTake (d.ni * d.nj) s),
          min := listMin (npTake (d.ni * d.nj) s),
          max := listMax (npTake (d.ni * d.nj) s),
          stdSq := varQ (npTake (d.ni * d.nj) s),
          rmsSq := meanSq (npTake (d.ni * d.nj) s) } ∧
    s' = npDrop (d.ni * d.nj) s := by
  unfold decodeOnePatch at hok
  split at hok
  · exact absurd hok (by simp)
  · rename_i grid hres
    split at hok
    · exact absurd hok (by simp)
    · rename_i hempty
      simp only [Except.ok.injEq, Prod.mk.injEq] at hok
      obtain ⟨hp, hs⟩ := hok
      unfold npReshape at hres
      split at hres
      · rename_i hcond
        obtain ⟨h1, h2, h3⟩ := hcond
        injection hres with hgrid
        subst hgrid
        refine ⟨h2, h1, h3, ?_, hp.symm, hs.symm⟩
        intro he
        rw [he] at hempty
        exact hempty rfl
      · exact absurd hres (by simp)

theorem decodeOnePatch_ok_Z {plane : PyVal} {i : Nat} {d : SW4PatchDesc} {s : List ℚ}
    {p : Patch} {s' : List ℚ}
    (hpl : plane = .pint 2)
    (hok : decodeOnePatch plane i d s = .ok (p, s')) :
    0 ≤ d.ni ∧ 0 ≤ d.nj ∧
    (npTake (d.ni * d.nj) s).length = d.nj.toNat * d.ni.toNat ∧
    npTake (d.ni * d.nj) s ≠ [] ∧
    p = { number := (i : Int), h := d.h, zmin := d.zmin, ib := d.ib, ni := d.ni,
          jb := d.jb, nj := d.nj,
          extent := (0 - d.h / 2, ((d.nj : ℚ) - 1) * d.h + d.h / 2,
                     0 - d.h / 2, ((d.ni : ℚ) - 1) * d.h + d.h / 2),
          data := transposeGrid (reshape2 d.nj.toNat d.ni.toNat (npTake (d.ni * d.nj) s)),
          min := listMin (npTake (d.ni * d.nj) s),
          max := listMax (npTake (d.ni * d.nj) s),
          stdSq := varQ (npTake (d.ni * d.nj) s),
          rmsSq := meanSq (npTake (d.ni * d.nj) s) } ∧
    s' = npDrop (d.ni * d.nj) s := by
  subst hpl
  unfold decodeOnePatch at hok
  split at hok
  · exact absurd hok (by simp)
  · rename_i grid hres
    split at hok
    · exact absurd hok (by simp)
    · rename_i hempty
      rw [if_neg (by simp), if_pos rfl] at hok
      simp only [Except.ok.injEq, Prod.mk.injEq] at hok
      obtain ⟨hp, hs⟩ := hok
      unfold npReshape at hres
      split at hres
      · rename_i hcond
        obtain ⟨h1, h2, h3⟩ := hcond
        injection hres with hgrid
        subst hgrid
        refine ⟨h2, h1, h3, ?_, hp.symm, hs.symm⟩
        intro he
        rw [he] at hempty
        exact hempty rfl
      · exact absurd hres (by simp)

theorem decodeOnePatch_ok_stats {plane : PyVal} {i : Nat} {d : SW4PatchDesc} {s : List ℚ}
    {p : Patch} {s' : List ℚ}
    (hok : decodeOnePatch plane i d s = .ok (p, s')) :
    p.h = d.h ∧ p.zmin = d.zmin ∧ p.ni = d.ni ∧ p.nj = d.nj ∧
    p.min = listMin (npTake (d.ni * d.nj) s) ∧
    p.max = listMax (npTake (d.ni * d.nj) s) ∧
    p.stdSq = varQ (npTake (d.ni * d.nj) s) ∧
    p.rmsSq = meanSq (npTake (d.ni * d.nj) s) := by
  unfold decodeOnePatch at hok
  split at hok
  · exact absurd hok (by simp)
  · split at hok
    · exact absurd hok (by simp)
    · split at hok
      · simp only [Except.ok.injEq, Prod.mk.injEq] at hok
        obtain ⟨hp, _⟩ := hok
        rw [← hp]
        exact ⟨rfl, rfl, rfl, rfl, rfl, rfl, rfl, rfl⟩
      · split at hok
        · simp only [Except.ok.injEq, Prod.mk.injEq] at hok
          obtain ⟨hp, _⟩ := hok
          rw [← hp]
          exact ⟨rfl, rfl, rfl, rfl, rfl, rfl, rfl, rfl⟩
        · simp only [Except.ok.injEq, Prod.mk.injEq] at hok
          obtain ⟨hp, _⟩ := hok
          rw [← hp]
          exact ⟨rfl, rfl, rfl, rfl, rfl, rfl, rfl, rfl⟩

/-! ### Inversion of the plane lookup table -/

theorem plane_dict_X {n : Int} (h : SW4_plane_dict (.pint n) = some "X") : n = 0 := by
  simp only [SW4_plane_dict] at h
  split at h
  · assumption
  · split at h
    · injection h with h; exact absurd h (by decide)
    · split at h
      · injection h with h; exact absurd h (by decide)
      · exact absurd h (by simp)

theorem plane_dict_Y {n : Int} (h : SW4_plane_dict (.pint n) = some "Y") : n = 1 := by
  simp only [SW4_plane_dict] at h
  split at h
  · injection h with h; exact absurd h (by decide)
  · split at h
    · assumption
    · split at h
      · injection h with h; exact absurd h (by decide)
      · exact absurd h (by simp)

theorem plane_dict_Z {n : Int} (h : SW4_plane_dict (.pint n) = some "Z") : n = 2 := by
  simp only [SW4_plane_dict] at h
  split at h
  · injection h with h; exact absurd h (by decide)
  · split at h
    · injection h with h; exact absurd h (by decide)
    · split at h
      · assumption
      · exact absurd h (by simp)

/-! ### The patch loop and the top-level native read -/

theorem decodePatchLoop_ok_length {plane : PyVal} :
    ∀ {i : Nat} {ds : List SW4PatchDesc} {s : List ℚ} {ps : List Patch} {s' : List ℚ},
      decodePatchLoop plane i ds s = .ok (ps, s') → ps.length = ds.length := by
  intro i ds
  induction ds generalizing i with
  | nil =>
    intro s ps s' h
    simp only [decodePatchLoop, Except.ok.injEq, Prod.mk.injEq] at h
    rw [← h.1]
    rfl
  | cons d ds ih =>
    intro s ps s' h
    unfold decodePatchLoop at h
    split at h
    · exact absurd h (by simp)
    · rename_i pr hone
      split at h
      · exact absurd h (by simp)
      · rename_i pf hrec
        simp only [Except.ok.injEq, Prod.mk.injEq] at h
        obtain ⟨hps, _⟩ := h
        rw [← hps]
        simp only [List.length_cons]
        rw [ih hrec]

theorem _readSW4patches_ok_length {img : Image} {descs : List SW4PatchDesc} {s : List ℚ}
    {img' : Image}
    (hn : 0 ≤ img.number_of_patches)
    (hd : img.number_of_patches.toNat ≤ descs.length)
    (hok : Image._readSW4patches img descs s = .ok img') :
    img'.patches.length = img.patches.length + img.number_of_patches.toNat := by
  unfold Image._readSW4patches at hok
  rw [if_neg (show ¬img.number_of_patches < 0 by omega)] at hok
  rw [if_neg (show ¬(img.number_of_patches < 0 ∨
    descs.length < img.number_of_patches.toNat) by omega)] at hok
  split at hok
  · exact absurd hok (by simp)
  · rename_i ps s2 hloop
    have hlen := decodePatchLoop_ok_length hloop
    simp only [Except.ok.injEq] at hok
    rw [← hok]
    simp only [List.length_append]
    rw [hlen, List.length_take]
    omega

theorem read_native_header_some (f : SW4File) (hd : SW4Header)
    (hhdr : f.header? = some hd) :
    read (.fileInput f true) = .error .unknownCode := by
  simp only [read, Image._readSW4hdr, hhdr]
  cases hp : prec_dict (.pint hd.precision) with
  | none => simp [hp]
  | some w => simp [hp, SW4_plane_dict]

theorem read_native_result (f : SW4File) :
    read (.fileInput f true) = .error .malformedHeader ∨
    read (.fileInput f true) = .error .unknownCode := by
  cases hh : f.header? with
  | none =>
    left
    simp only [read, Image._readSW4hdr, hh]
  | some hd =>
    right
    exact read_native_header_some f hd hh

/-! ### The claims -/

/-- Claim C1: for every decoded patch, the orientation rule is applied exactly as
specified per the image's plane: if the plane is X or Y (the plane codes the
lookup table sends to X or Y) the grid is not transposed — it stays the
row-major `(nj, ni)` reshape of the raw buffer — and the extent is
`(-h/2, (ni-1)h + h/2, zmin - h/2, zmin + (nj-1)h + h/2)`; if the plane is Z the
grid is transposed, its shape becoming `(ni, nj)`, and the extent is
`(-h/2, (nj-1)h + h/2, -h/2, (ni-1)h + h/2)`. -/
theorem claim_C1 (code : Int) (i : Nat) (d : SW4PatchDesc) (s : List ℚ)
    (p : Patch) (s' : List ℚ)
    (hok : decodeOnePatch (.pint code) i d s = .ok (p, s')) :
    ((SW4_plane_dict (.pint code) = some "X" ∨ SW4_plane_dict (.pint code) = some "Y") →
      p.data = reshape2 d.nj.toNat d.ni.toNat (npTake (d.ni * d.nj) s) ∧
      p.data.length = d.nj.toNat ∧ (∀ row ∈ p.data, row.length = d.ni.toNat) ∧
      p.extent = (0 - d.h / 2, ((d.ni : ℚ) - 1) * d.h + d.h / 2,
                  d.zmin - d.h / 2, d.zmin + ((d.nj : ℚ) - 1) * d.h + d.h / 2)) ∧
    (SW4_plane_dict (.pint code) = some "Z" →
      p.data = transposeGrid (reshape2 d.nj.toNat d.ni.toNat (npTake (d.ni * d.nj) s)) ∧
      p.data.length = d.ni.toNat ∧ (∀ row ∈ p.data, row.length = d.nj.toNat) ∧
      p.extent = (0 - d.h / 2, ((d.nj : ℚ) - 1) * d.h + d.h / 2,
                  0 - d.h / 2, ((d.ni : ℚ) - 1) * d.h + d.h / 2)) := by
  constructor
  · intro hxy
    have hcode : code = 0 ∨ code = 1 := hxy.imp plane_dict_X plane_dict_Y
    have hx := decodeOnePatch_ok_XY (by rcases hcode with h | h <;> simp [h]) hok
    obtain ⟨h1, h2, h3, h4, hp, _⟩ := hx
    subst hp
    refine ⟨rfl, reshape2_length _ _ _, reshape2_rows _ _ _ h3, rfl⟩
  · intro hz
    have hcode : code = 2 := plane_dict_Z hz
    subst hcode
    have hx := decodeOnePatch_ok_Z rfl hok
    obtain ⟨h1, h2, h3, h4, hp, _⟩ := hx
    subst hp
    have hgne : reshape2 d.nj.toNat d.ni.toNat (npTake (d.ni * d.nj) s) ≠ [] := by
      intro he
      have hr := reshape2_length d.nj.toNat d.ni.toNat (npTake (d.ni * d.nj) s)
      rw [he] at hr
      have hlen0 : (npTake (d.ni * d.nj) s).length = 0 := by
        rw [h3, ← hr]
        simp
      exact h4 (List.eq_nil_of_length_eq_zero hlen0)
    refine ⟨rfl, ?_, ?_, rfl⟩
    · exact transposeGrid_length d.ni.toNat _ hgne (reshape2_rows _ _ _ h3)
    · intro row hrow
      have hr := transposeGrid_rows d.ni.toNat _ (reshape2_rows _ _ _ h3) row hrow
      rw [hr, reshape2_length]

/-- Concrete plane-Z decode used by the witness of C1: the patch produced by
the decoder from descriptor `(h=2, zmin=0, ib=1, ni=2, jb=1, nj=1)` on the
samples `[1, 2]` (fields kept in the decoder's unevaluated form; its `data`
is `[[1], [2]]`, its extent `(-1, 1, -1, 3)`). -/
def c1p : Patch :=
  { number := 0, h := 2, zmin := 0, ib := 1, ni := 2, jb := 1, nj := 1,
    extent := (0 - (2 : ℚ) / 2, (((1 : Int) : ℚ) - 1) * 2 + 2 / 2,
               0 - (2 : ℚ) / 2, (((2 : Int) : ℚ) - 1) * 2 + 2 / 2),
    data := transposeGrid (reshape2 (1 : Int).toNat (2 : Int).toNat
      (npTake ((2 : Int) * (1 : Int)) [1, 2])),
    min := listMin (npTake ((2 : Int) * (1 : Int)) [1, 2]),
    max := listMax (npTake ((2 : Int) * (1 : Int)) [1, 2]),
    stdSq := varQ (npTake ((2 : Int) * (1 : Int)) [1, 2]),
    rmsSq := meanSq (npTake ((2 : Int) * (1 : Int)) [1, 2]) }

/-- Witness for C1: the concrete plane-Z decode above is transposed to shape
`(2, 1)`, with `data = [[1], [2]]` and the Z extent. -/
theorem claim_C1_witness :
    c1p.data =
      transposeGrid (reshape2 (1 : Int).toNat (2 : Int).toNat
        (npTake ((2 : Int) * (1 : Int)) [1, 2])) ∧
    c1p.data.length = (2 : Int).toNat ∧
    c1p.data = [[1], [2]] ∧
    c1p.extent = (0 - (2 : ℚ) / 2, (((1 : Int) : ℚ) - 1) * 2 + 2 / 2,
                  0 - (2 : ℚ) / 2, (((2 : Int) : ℚ) - 1) * 2 + 2 / 2) := by
  have h := (claim_C1 2 0 ⟨2, 0, 1, 2, 1, 1⟩ [1, 2] c1p [] rfl).2 rfl
  exact ⟨h.1, h.2.1, rfl, h.2.2.2⟩

/-- Claim C7: for every decoded patch the statistics `min`, `max`, `std` and
`rms` are computed from the raw pre-transpose sample buffer, with
`rms = sqrt(mean(x^2))` (and `std = sqrt(mean((x - mean x)^2))`); consequently
for a plane-Z patch the four statistics equal those of the stored
(transposed) grid — the transpose leaves them unchanged. -/
theorem claim_C7 (code : Int) (i : Nat) (d : SW4PatchDesc) (s : List ℚ)
    (p : Patch) (s' : List ℚ)
    (hok : decodeOnePatch (.pint code) i d s = .ok (p, s')) :
    (p.min = listMin (npTake (d.ni * d.nj) s) ∧
     p.max = listMax (npTake (d.ni * d.nj) s) ∧
     p.stdSq = varQ (npTake (d.ni * d.nj) s) ∧
     p.rmsSq = meanSq (npTake (d.ni * d.nj) s) ∧
     Patch.rms p = Real.sqrt ((meanSq (npTake (d.ni * d.nj) s) : ℚ) : ℝ) ∧
     Patch.std p = Real.sqrt ((varQ (npTake (d.ni * d.nj) s) : ℚ) : ℝ)) ∧
    (SW4_plane_dict (.pint code) = some "Z" →
      p.min = listMin p.data.flatten ∧
      p.max = listMax p.data.flatten ∧
      p.stdSq = varQ p.data.flatten ∧
      p.rmsSq = meanSq p.data.flatten) := by
  obtain ⟨_, _, _, _, hmin, hmax, hstd, hrms⟩ := decodeOnePatch_ok_stats hok
  refine ⟨⟨hmin, hmax, hstd, hrms, ?_, ?_⟩, ?_⟩
  · simp only [Patch.rms, hrms]
  · simp only [Patch.std, hstd]
  · intro hz
    have hcode : code = 2 := plane_dict_Z hz
    subst hcode
    obtain ⟨h1, h2, h3, h4, hp, _⟩ := decodeOnePatch_ok_Z rfl hok
    have hrows := reshape2_rows d.nj.toNat d.ni.toNat (npTake (d.ni * d.nj) s) h3
    have hperm : (transposeGrid (reshape2 d.nj.toNat d.ni.toNat
        (npTake (d.ni * d.nj) s))).flatten.Perm (npTake (d.ni * d.nj) s) := by
      have h5 := transposeGrid_flatten_perm d.ni.toNat _ hrows
      rw [reshape2_flatten d.nj.toNat d.ni.toNat _ h3] at h5
      exact h5
    have hdata : p.data =
        transposeGrid (reshape2 d.nj.toNat d.ni.toNat (npTake (d.ni * d.nj) s)) := by
      rw [hp]
    rw [hdata, hmin, hmax, hstd, hrms]
    exact ⟨(listMin_perm hperm).symm, (listMax_perm hperm).symm,
           (varQ_perm hperm).symm, (meanSq_perm hperm).symm⟩

/-- Concrete plane-Z decode used by the witness of C7: the patch produced by
the decoder from descriptor `(h=1, zmin=0, ib=1, ni=2, jb=1, nj=2)` on the
samples `[1, 2, 3, 4]` (its `data` is the transposed `[[1, 3], [2, 4]]`). -/
def c7p : Patch :=
  { number := 0, h := 1, zmin := 0, ib := 1, ni := 2, jb := 1, nj := 2,
    extent := (0 - (1 : ℚ) / 2, (((2 : Int) : ℚ) - 1) * 1 + 1 / 2,
               0 - (1 : ℚ) / 2, (((2 : Int) : ℚ) - 1) * 1 + 1 / 2),
    data := transposeGrid (reshape2 (2 : Int).toNat (2 : Int).toNat
      (npTake ((2 : Int) * (2 : Int)) [1, 2, 3, 4])),
    min := listMin (npTake ((2 : Int) * (2 : Int)) [1, 2, 3, 4]),
    max := listMax (npTake ((2 : Int) * (2 : Int)) [1, 2, 3, 4]),
    stdSq := varQ (npTake ((2 : Int) * (2 : Int)) [1, 2, 3, 4]),
    rmsSq := meanSq (npTake ((2 : Int) * (2 : Int)) [1, 2, 3, 4]) }

/-- Witness for C7: on the concrete plane-Z decode above (data transposed to
`[[1, 3], [2, 4]]`), the four statistics equal those of the stored grid. -/
theorem claim_C7_witness :
    c7p.data = [[1, 3], [2, 4]] ∧
    c7p.min = listMin c7p.data.flatten ∧
    c7p.max = listMax c7p.data.flatten ∧
    c7p.stdSq = varQ c7p.data.flatten ∧
    c7p.rmsSq = meanSq c7p.data.flatten := by
  have h := (claim_C7 2 0 ⟨1, 0, 1, 2, 1, 2⟩ [1, 2, 3, 4] c7p [] rfl).2 rfl
  exact ⟨rfl, h⟩

/-- Claim C8: for every decoded patch with grid dimensions `ni ≥ 1`, `nj ≥ 1`
(these hold automatically on a successful decode with a nonempty buffer) and
spacing `h > 0`, the computed extent satisfies `xMin < xMax` and
`yMin < yMax`, and each of the four extent bounds lies exactly `h/2` beyond
the outermost sample center on that side, in both orientation branches. -/
theorem claim_C8 (code : Int) (i : Nat) (d : SW4PatchDesc) (s : List ℚ)
    (p : Patch) (s' : List ℚ)
    (hh : 0 < d.h) (hcode : code = 0 ∨ code = 1 ∨ code = 2)
    (hok : decodeOnePatch (.pint code) i d s = .ok (p, s')) :
    p.extent.1 < p.extent.2.1 ∧ p.extent.2.2.1 < p.extent.2.2.2 ∧
    ((code = 0 ∨ code = 1) →
      p.extent = (0 - d.h / 2, ((d.ni : ℚ) - 1) * d.h + d.h / 2,
                  d.zmin - d.h / 2, d.zmin + ((d.nj : ℚ) - 1) * d.h + d.h / 2)) ∧
    (code = 2 →
      p.extent = (0 - d.h / 2, ((d.nj : ℚ) - 1) * d.h + d.h / 2,
                  0 - d.h / 2, ((d.ni : ℚ) - 1) * d.h + d.h / 2)) := by
  have key : ∀ (hni : 0 ≤ d.ni) (hnj : 0 ≤ d.nj),
      (npTake (d.ni * d.nj) s).length = d.nj.toNat * d.ni.toNat →
      npTake (d.ni * d.nj) s ≠ [] →
      (1 : ℚ) ≤ (d.ni : ℚ) ∧ (1 : ℚ) ≤ (d.nj : ℚ) := by
    intro hni hnj hlen hne
    have h0 : (npTake (d.ni * d.nj) s).length ≠ 0 := by
      intro h
      exact hne (List.eq_nil_of_length_eq_zero h)
    rw [hlen] at h0
    have hna : d.ni.toNat ≠ 0 := by
      intro h
      rw [h, Nat.mul_zero] at h0
      exact h0 rfl
    have hnb : d.nj.toNat ≠ 0 := by
      intro h
      rw [h, Nat.zero_mul] at h0
      exact h0 rfl
    constructor
    · exact_mod_cast (by omega : (1 : Int) ≤ d.ni)
    · exact_mod_cast (by omega : (1 : Int) ≤ d.nj)
  rcases hcode with hc | hc | hc
  · subst hc
    obtain ⟨h1, h2, h3, h4, hp, _⟩ := decodeOnePatch_ok_XY (Or.inl rfl) hok
    obtain ⟨hni1, hnj1⟩ := key h1 h2 h3 h4
    subst hp
    have hx : (0 : ℚ) ≤ ((d.ni : ℚ) - 1) * d.h := mul_nonneg (by linarith) hh.le
    have hy : (0 : ℚ) ≤ ((d.nj : ℚ) - 1) * d.h := mul_nonneg (by linarith) hh.le
    refine ⟨by dsimp only; linarith, by dsimp only; linarith, fun _ => rfl,
      fun h => absurd h (by decide)⟩
  · subst hc
    obtain ⟨h1, h2, h3, h4, hp, _⟩ := decodeOnePatch_ok_XY (Or.inr rfl) hok
    obtain ⟨hni1, hnj1⟩ := key h1 h2 h3 h4
    subst hp
    have hx : (0 : ℚ) ≤ ((d.ni : ℚ) - 1) * d.h := mul_nonneg (by linarith) hh.le
    have hy : (0 : ℚ) ≤ ((d.nj : ℚ) - 1) * d.h := mul_nonneg (by linarith) hh.le
    refine ⟨by dsimp only; linarith, by dsimp only; linarith, fun _ => rfl,
      fun h => absurd h (by decide)⟩
  · subst hc
    obtain ⟨h1, h2, h3, h4, hp, _⟩ := decodeOnePatch_ok_Z rfl hok
    obtain ⟨hni1, hnj1⟩ := key h1 h2 h3 h4
    subst hp
    have hx : (0 : ℚ) ≤ ((d.nj : ℚ) - 1) * d.h := mul_nonneg (by linarith) hh.le
    have hy : (0 : ℚ) ≤ ((d.ni : ℚ) - 1) * d.h := mul_nonneg (by linarith) hh.le
    refine ⟨by dsimp only; linarith, by dsimp only; linarith,
      fun h => absurd h (by simp), fun _ => rfl⟩

/-- Concrete plane-X decode used by the witness of C8: the patch produced by
the decoder from descriptor `(h=4, zmin=10, ib=1, ni=1, jb=1, nj=2)` on the
samples `[3, 4]` (its extent is `(-2, 2, 8, 16)`). -/
def c8p : Patch :=
  { number := 0, h := 4, zmin := 10, ib := 1, ni := 1, jb := 1, nj := 2,
    extent := (0 - (4 : ℚ) / 2, (((1 : Int) : ℚ) - 1) * 4 + 4 / 2,
               (10 : ℚ) - 4 / 2, (10 : ℚ) + (((2 : Int) : ℚ) - 1) * 4 + 4 / 2),
    data := reshape2 (2 : Int).toNat (1 : Int).toNat (npTake ((1 : Int) * (2 : Int)) [3, 4]),
    min := listMin (npTake ((1 : Int) * (2 : Int)) [3, 4]),
    max := listMax (npTake ((1 : Int) * (2 : Int)) [3, 4]),
    stdSq := varQ (npTake ((1 : Int) * (2 : Int)) [3, 4]),
    rmsSq := meanSq (npTake ((1 : Int) * (2 : Int)) [3, 4]) }

/-- Witness for C8: the concrete plane-X decode above has a well-ordered
extent, concretely `(-2, 2, 8, 16)`. -/
theorem claim_C8_witness :
    c8p.extent.1 < c8p.extent.2.1 ∧ c8p.extent.2.2.1 < c8p.extent.2.2.2 ∧
    c8p.extent = (-2, 2, 8, 16) := by
  have h := claim_C8 0 0 ⟨4, 10, 1, 1, 1, 2⟩ [3, 4] c8p [] (by norm_num) (Or.inl rfl) rfl
  refine ⟨h.1, h.2.1, ?_⟩
  norm_num [c8p]

/-- The end-to-end scenario file of the spec: header
`(precision=8, numberOfPatches=1, time=1.5, planeCode=0 (X), coordinate=0.0,
modeCode=1 (ux, m), gridInfo=0, creationTime bytes)`, one descriptor
`(h=100.0, zmin=0.0, ib=1, ni=3, jb=1, nj=2)` and the six float64 samples
`[1, 2, 3, 4, 5, 6]`. -/
def c2File : SW4File :=
  { header? := some { precision := 8, number_of_patches := 1, time := 3 / 2, planeCode := 0,
                      coordinate := 0, modeCode := 1, gridInfo := 0, creationTime := "2015" },
    descriptors := [⟨100, 0, 1, 3, 1, 2⟩],
    samples := [1, 2, 3, 4, 5, 6] }

/-- The image state the C2 scenario header should produce (patch count 1,
double precision, raw plane code 0 on `_plane`). -/
def c2Img : Image := { number_of_patches := 1, precision := 8, _plane := .pint 0 }

/-- The patch the C2 scenario's descriptor and samples decode to (fields kept
in the decoder's unevaluated form; its `data` is `[[1, 2, 3], [4, 5, 6]]` and
its extent `(-50, 250, -50, 150)`). -/
def c2p : Patch :=
  { number := 0, h := 100, zmin := 0, ib := 1, ni := 3, jb := 1, nj := 2,
    extent := (0 - (100 : ℚ) / 2, (((3 : Int) : ℚ) - 1) * 100 + 100 / 2,
               (0 : ℚ) - 100 / 2, (0 : ℚ) + (((2 : Int) : ℚ) - 1) * 100 + 100 / 2),
    data := reshape2 (2 : Int).toNat (3 : Int).toNat
      (npTake ((3 : Int) * (2 : Int)) [1, 2, 3, 4, 5, 6]),
    min := listMin (npTake ((3 : Int) * (2 : Int)) [1, 2, 3, 4, 5, 6]),
    max := listMax (npTake ((3 : Int) * (2 : Int)) [1, 2, 3, 4, 5, 6]),
    stdSq := varQ (npTake ((3 : Int) * (2 : Int)) [1, 2, 3, 4, 5, 6]),
    rmsSq := meanSq (npTake ((3 : Int) * (2 : Int)) [1, 2, 3, 4, 5, 6]) }

/-- Claim C2 (code bug): the spec's end-to-end scenario file should decode to
an image whose single patch has data `[[1, 2, 3], [4, 5, 6]]`, extent
`(-50, 250, -50, 150)`, `min = 1`, `max = 6`, `rms = sqrt(91/6)`.  The
actual `read` fails with a `KeyError` (UnknownCode) at
`SW4_plane_dict[image.plane]`, because `_readSW4hdr` stored the plane code
in `image._plane` while `image.plane` still holds the string default `'X'`.
The patch decoder itself, run with the correctly resolved header state,
produces exactly the claimed patch. -/
theorem claim_C2 :
    read (.fileInput c2File true) = .error .unknownCode ∧
    Image._readSW4patches c2Img c2File.descriptors c2File.samples =
      .ok { c2Img with patches := [c2p] } ∧
    c2p.data = [[1, 2, 3], [4, 5, 6]] ∧
    c2p.extent = (-50, 250, -50, 150) ∧
    c2p.min = 1 ∧ c2p.max = 6 ∧ c2p.rmsSq = 91 / 6 ∧
    Patch.rms c2p = Real.sqrt ((91 : ℝ) / 6) := by
  have h1 : c2p.rmsSq = 91 / 6 := by
    have h : c2p.rmsSq = meanSq [1, 2, 3, 4, 5, 6] := rfl
    rw [h]
    norm_num [meanSq]
  refine ⟨rfl, rfl, rfl, ?_, rfl, rfl, h1, ?_⟩
  · norm_num [c2p]
  · simp only [Patch.rms, h1]
    norm_num

/-- Claim C4 (code bug): the resolved `image.plane` should equal the plane
table's value at the header's plane code and drive the orientation rule.  In
fact no native read ever succeeds: `read` either fails on a missing header or
raises `KeyError` (UnknownCode) at `SW4_plane_dict[image.plane]`, since the
header's plane code went to `image._plane` while `image.plane` still holds
the string default `'X'`, which is not a key of the integer-keyed table; the
orientation branch is driven by the raw `_plane` code instead. -/
theorem claim_C4 (f : SW4File) :
    read (.fileInput f true) = .error .malformedHeader ∨
    read (.fileInput f true) = .error .unknownCode :=
  read_native_result f

/-- Witness for C4 at the empty file. -/
theorem claim_C4_witness :
    read (.fileInput ⟨none, [], []⟩ true) = .error .malformedHeader ∨
    read (.fileInput ⟨none, [], []⟩ true) = .error .unknownCode :=
  claim_C4 ⟨none, [], []⟩

/-- Claim C5: for every native-format file whose header carries a plane code
with no entry in the plane lookup table (for example plane code 9), the read
fails with `UnknownCode` and no image is returned.  (This holds, though
degenerately: the plane-attribute slip of C4 makes every native read with a
complete header fail with `UnknownCode`, these files included.) -/
theorem claim_C5 (f : SW4File) (hd : SW4Header) (hhdr : f.header? = some hd)
    (_hplane : SW4_plane_dict (.pint hd.planeCode) = none) :
    read (.fileInput f true) = .error .unknownCode :=
  read_native_header_some f hd hhdr

/-- A native file whose header declares the unknown plane code 9. -/
def c5File : SW4File :=
  { header? := some ⟨4, 0, 0, 9, 0, 0, 0, ""⟩, descriptors := [], samples := [] }

/-- Witness for C5: the plane-code-9 file reads to `UnknownCode`. -/
theorem claim_C5_witness :
    c5File.header? = some ⟨4, 0, 0, 9, 0, 0, 0, ""⟩ ∧
    SW4_plane_dict (.pint 9) = none ∧
    read (.fileInput c5File true) = .error .unknownCode :=
  ⟨rfl, rfl, claim_C5 c5File ⟨4, 0, 0, 9, 0, 0, 0, ""⟩ rfl rfl⟩

/-- A native file with a complete header and a complete descriptor
`(h=100, zmin=0, ib=1, ni=3, jb=1, nj=2)` whose sample buffer `[1..5]` is one
element short of the required `ni*nj = 6`. -/
def c6File : SW4File :=
  { header? := some ⟨8, 1, 0, 0, 0, 1, 0, ""⟩,
    descriptors := [⟨100, 0, 1, 3, 1, 2⟩], samples := [1, 2, 3, 4, 5] }

/-- The image state the C6 header would produce if the plane were resolved. -/
def c6Img : Image := { number_of_patches := 1, precision := 8, _plane := .pint 0 }

/-- Claim C6 (code bug): on a stream with a complete header and descriptor
but a sample buffer short by one element, the read should fail with
`TruncatedPatch`.  The actual `read` fails before the patch decoder ever
runs, with `UnknownCode` from the `SW4_plane_dict[image.plane]` slip; the
patch decoder itself, run on the same stream, does fail with
`TruncatedPatch` (the reshape of 5 elements to `(2, 3)` raises).  Either
way no image is returned. -/
theorem claim_C6 :
    read (.fileInput c6File true) = .error .unknownCode ∧
    Image._readSW4patches c6Img c6File.descriptors c6File.samples =
      .error .truncatedPatch :=
  ⟨rfl, rfl⟩

/-- Claim C3, amended: the stated invariant
`len(image.patches) == image.number_of_patches` holds after a successful
patch-decode pass provided the stream holds at least `number_of_patches`
complete descriptor records (the unamended claim fails: with a truncated
descriptor region the pass can succeed with fewer patches, see the
counterexample). -/
theorem claim_C3 (img : Image) (descs : List SW4PatchDesc) (s : List ℚ) (img' : Image)
    (h0 : img.patches = []) (hn : 0 ≤ img.number_of_patches)
    (hd : img.number_of_patches.toNat ≤ descs.length)
    (hok : Image._readSW4patches img descs s = .ok img') :
    img'.patches.length = img.number_of_patches.toNat := by
  have h := _readSW4patches_ok_length hn hd hok
  rw [h0] at h
  simpa using h

/-- An image whose header declared 2 patches, for the C3 counterexample. -/
def c3Img : Image := { number_of_patches := 2, precision := 8, _plane := .pint 0 }

/-- Counterexample to C3 as stated: a native stream that ends right after
the header, before any complete descriptor record.  `np.fromfile` silently
returns zero descriptor records (consuming whatever partial bytes remain),
the loop body never runs — no sample read is ever issued — and the
patch-decode pass succeeds with 0 patches while the header declared 2. -/
theorem claim_C3_counterexample :
    (Image._readSW4patches c3Img [] []).toOption.map
        (fun im => im.patches.length) = some 0 ∧
    c3Img.number_of_patches = 2 ∧ (0 : Nat) ≠ 2 :=
  ⟨rfl, rfl, by decide⟩

/-- A fresh image declaring one patch, for the C3 witness. -/
def c3wImg : Image := { number_of_patches := 1, precision := 8, _plane := .pint 1 }

/-- Witness for C3 (amended): a complete one-patch stream decodes to exactly
`number_of_patches = 1` patch. -/
theorem claim_C3_witness :
    ∃ img', Image._readSW4patches c3wImg [⟨1, 0, 1, 1, 1, 1⟩] [7] = .ok img' ∧
      img'.patches.length = c3wImg.number_of_patches.toNat := by
  obtain ⟨img', hok⟩ : ∃ img',
      Image._readSW4patches c3wImg [⟨1, 0, 1, 1, 1, 1⟩] [7] = .ok img' := ⟨_, rfl⟩
  exact ⟨img', hok, claim_C3 c3wImg _ _ img' rfl (by decide) (by decide) hok⟩

/-- Claim C9: reading with the synthetic/random sentinel returns an image
containing exactly one patch with `ni = 100`, `nj = 200`, spacing `h = 100`,
`zmin = 0`, sample values in `[-1, 1]`, and the non-padded extent
`(0, nj*h, zmin + ni*h, zmin) = (0, 20000, 10000, 0)`. -/
theorem claim_C9 (rand : Nat → Nat → ℚ)
    (hr : ∀ i j, i < 100 → j < 200 → 0 ≤ rand i j ∧ rand i j < 1) :
    ∃ img, read (.randomInput rand) = .ok img ∧
      img.patches.length = 1 ∧
      ∀ p ∈ img.patches,
        p.ni = 100 ∧ p.nj = 200 ∧ p.h = 100 ∧ p.zmin = 0 ∧
        p.extent = (0, 20000, 10000, 0) ∧
        p.data.length = 100 ∧ (∀ row ∈ p.data, row.length = 200) ∧
        (∀ row ∈ p.data, ∀ x ∈ row, -1 ≤ x ∧ x ≤ 1) := by
  refine ⟨_, rfl, rfl, ?_⟩
  intro p hp
  rcases List.mem_cons.mp hp with h | h
  · subst h
    refine ⟨rfl, rfl, rfl, rfl, by norm_num, by simp [randomData], ?_, ?_⟩
    · intro row hrow
      simp only [randomData, List.mem_map] at hrow
      obtain ⟨i, hi, rfl⟩ := hrow
      simp
    · intro row hrow x hx
      simp only [randomData, List.mem_map] at hrow
      obtain ⟨i, hi, rfl⟩ := hrow
      simp only [List.mem_map] at hx
      obtain ⟨j, hj, rfl⟩ := hx
      obtain ⟨hl, hu⟩ := hr i j (List.mem_range.mp hi) (List.mem_range.mp hj)
      constructor <;> linarith
  · exact absurd h (List.not_mem_nil p)

/-- Witness for C9 at the constant random source `1/2`. -/
theorem claim_C9_witness :
    ∃ img, read (.randomInput fun _ _ => (1 : ℚ) / 2) = .ok img ∧
      img.patches.length = 1 ∧
      ∀ p ∈ img.patches,
        p.ni = 100 ∧ p.nj = 200 ∧ p.h = 100 ∧ p.zmin = 0 ∧
        p.extent = (0, 20000, 10000, 0) ∧
        p.data.length = 100 ∧ (∀ row ∈ p.data, row.length = 200) ∧
        (∀ row ∈ p.data, ∀ x ∈ row, -1 ≤ x ∧ x ≤ 1) :=
  claim_C9 (fun _ _ => (1 : ℚ) / 2) (fun _ _ _ _ => by norm_num)

/-- Claim C10, amended: if the stream ends before any complete descriptor
record (zero complete descriptors present), the patch-decoding loop really
does complete without error and silently appends zero patches, fewer than
declared; but when at least one complete descriptor was read and the stream
cannot supply its `ni*nj` samples, the decode raises an error
(TruncatedPatch, from the reshape) instead of completing silently — the
unamended claim fails there, see the counterexample. -/
theorem claim_C10 (img : Image) (s : List ℚ)
    (h0 : img.patches = []) (hn : 1 ≤ img.number_of_patches) :
    Image._readSW4patches img [] s = .ok img ∧
    img.patches.length < img.number_of_patches.toNat := by
  constructor
  · unfold Image._readSW4patches
    rw [if_neg (show ¬img.number_of_patches < 0 by omega)]
    simp only [List.take_nil]
    simp only [decodePatchLoop]
    rw [List.append_nil]
  · rw [h0]
    simp only [List.length_nil]
    omega

/-- An image whose header declared 2 patches, for the C10 counterexample. -/
def c10Img : Image := { number_of_patches := 2, precision := 4, _plane := .pint 0 }

/-- Counterexample to C10 as stated: with 2 declared patches and the stream
ending after one complete descriptor record (so no samples remain), the
loop does not complete silently — it raises `TruncatedPatch`. -/
theorem claim_C10_counterexample :
    Image._readSW4patches c10Img [⟨1, 0, 1, 1, 1, 1⟩] [] = .error .truncatedPatch ∧
    ([⟨1, 0, 1, 1, 1, 1⟩] : List SW4PatchDesc).length < c10Img.number_of_patches.toNat :=
  ⟨rfl, by decide⟩

/-- A fresh image declaring 3 patches, for the C10 witness. -/
def c10wImg : Image := { number_of_patches := 3 }

/-- Witness for C10 (amended): with zero descriptors present the loop
completes silently with zero patches, fewer than the 3 declared. -/
theorem claim_C10_witness :
    Image._readSW4patches c10wImg [] [] = .ok c10wImg ∧
    c10wImg.patches.length < c10wImg.number_of_patches.toNat :=
  claim_C10 c10wImg [] rfl (by decide)

end SeisPy
